import Mathlib

/-!
Shallow embedding of the acme2 ACME client (Rust) for specification checking.

The embedding follows the source files:
  * `src/jws.rs`        — JWK construction, ES256 DER→raw conversion, JWS assembly,
                          RFC 7638 thumbprints.
  * `src/directory.rs`  — nonce cache (`get_nonce`) and `authenticated_request`.
  * `src/account.rs`    — `AccountBuilder::build` and `Account::private_key`.
  * `src/register.rs`   — the older `AccountRegistration::register` path.
  * `old/challenge.rs`  — the older `Challenge::validate` polling loop.

External collaborators (OpenSSL signing and ASN.1 parsing, SHA-256, HTTP) are
modelled as oracles passed in explicitly; everything the repository itself
computes is embedded as executable Lean definitions.
-/

namespace Acme2

/-! ### Bytes, UTF-8 and base64url (helpers `b64`, `as_bytes`) -/

/-- UTF-8 encoding of one character (model of Rust `str::as_bytes` per char). -/
def utf8Bytes (c : Char) : List Nat :=
  let n := c.toNat
  if n < 128 then [n]
  else if n < 2048 then [192 + n / 64, 128 + n % 64]
  else if n < 65536 then [224 + n / 4096, 128 + n / 64 % 64, 128 + n % 64]
  else [240 + n / 262144, 128 + n / 4096 % 64, 128 + n / 64 % 64, 128 + n % 64]

/-- UTF-8 bytes of a string (model of Rust `str::as_bytes`). -/
def strBytes (s : String) : List Nat := s.data.flatMap utf8Bytes

/-- The URL-safe base64 alphabet (RFC 4648 §5), as used by
`base64::URL_SAFE_NO_PAD` in the repository's `b64` helper. -/
def b64Alphabet : String :=
  "ABCDEFGHIJKLMNOPQRSTUVWXYZabcdefghijklmnopqrstuvwxyz0123456789-_"

/-- Character for a 6-bit group. -/
def b64Char (n : Nat) : Char := b64Alphabet.toList.getD n 'A'

/-- base64url (no padding) encoding, character list. -/
def b64Chars : List Nat → List Char
  | [] => []
  | [b1] => [b64Char (b1 / 4), b64Char (b1 % 4 * 16)]
  | [b1, b2] =>
    [b64Char (b1 / 4), b64Char (b1 % 4 * 16 + b2 / 16), b64Char (b2 % 16 * 4)]
  | b1 :: b2 :: b3 :: rest =>
    b64Char (b1 / 4) :: b64Char (b1 % 4 * 16 + b2 / 16) ::
      b64Char (b2 % 16 * 4 + b3 / 64) :: b64Char (b3 % 64) :: b64Chars rest

/-- Model of the repository's `b64` helper:
`base64::encode_config(data, base64::URL_SAFE_NO_PAD)`. -/
def b64 (bs : List Nat) : String := String.mk (b64Chars bs)

/-! ### Compact JSON rendering (model of `serde_json::to_string`)

All objects the embedded code serializes are one level deep (the only nested
object is a JWK inside a JWS header, whose own values are strings), so a
non-recursive value type suffices. -/

/-- One JSON escape step, as `serde_json`'s compact formatter performs it:
`"` and `\` get a backslash escape, control characters get the short escapes
or a `\u00xx` form, everything else is emitted verbatim. -/
def escapeChar (c : Char) : String :=
  if c = '"' then "\\\""
  else if c = '\\' then "\\\\"
  else if c.toNat < 32 then
    if c = '\x08' then "\\b"
    else if c = '\x0c' then "\\f"
    else if c = '\n' then "\\n"
    else if c = '\r' then "\\r"
    else if c = '\t' then "\\t"
    else
      "\\u00" ++ String.mk ["0123456789abcdef".toList.getD (c.toNat / 16) '0',
        "0123456789abcdef".toList.getD (c.toNat % 16) '0']
  else String.singleton c

/-- JSON string-body escaping over a character list. -/
def jsonEscapeList : List Char → String
  | [] => ""
  | c :: cs => escapeChar c ++ jsonEscapeList cs

/-- JSON string-body escaping. -/
def jsonEscape (s : String) : String := jsonEscapeList s.data

/-- A flat JSON value, sufficient for every object this client serializes. -/
inductive JVal
  | str (s : String)
  | jbool (b : Bool)
  | null
  | arr (xs : List String)
  | obj (kvs : List (String × String))
deriving DecidableEq, Repr

/-- Comma-separated join, as the compact serializer emits object and array
members. -/
def joinComma : List String → String
  | [] => ""
  | [a] => a
  | a :: rest => a ++ "," ++ joinComma rest

/-- Compact rendering of a JSON object whose values are all strings
(as `serde_json::to_string` produces it: no whitespace anywhere). -/
def renderStrObj (kvs : List (String × String)) : String :=
  "\x7b" ++ joinComma
    (kvs.map (fun kv => "\"" ++ jsonEscape kv.1 ++ "\":\"" ++ jsonEscape kv.2 ++ "\"")) ++
  "\x7d"

/-- Compact rendering of a flat JSON value. -/
def renderJVal : JVal → String
  | .str s => "\"" ++ jsonEscape s ++ "\""
  | .jbool true => "true"
  | .jbool false => "false"
  | .null => "null"
  | .arr xs =>
    "[" ++ joinComma (xs.map (fun s => "\"" ++ jsonEscape s ++ "\"")) ++ "]"
  | .obj kvs => renderStrObj kvs

/-- Compact rendering of a JSON object (no whitespace, keys in list order). -/
def renderObj (kvs : List (String × JVal)) : String :=
  "\x7b" ++ joinComma
    (kvs.map (fun kv => "\"" ++ jsonEscape kv.1 ++ "\":" ++ renderJVal kv.2)) ++
  "\x7d"

/-! ### Byte-wise string order (model of Rust `str::cmp` used by `sort_by`) -/

/-- Byte-wise (equivalently codepoint-wise) strict order on character lists. -/
def charListLt : List Char → List Char → Bool
  | [], [] => false
  | [], _ :: _ => true
  | _ :: _, [] => false
  | a :: as, b :: bs =>
    if a.toNat < b.toNat then true
    else if b.toNat < a.toNat then false
    else charListLt as bs

/-- Model of `k1.cmp(k2) == Ordering::Less` for Rust strings. -/
def strLt (a b : String) : Bool := charListLt a.data b.data

/-- Insert one key/value pair into a key-sorted list (keys distinct here, so
stability questions do not arise). -/
def insertPair (a : String × String) : List (String × String) → List (String × String)
  | [] => [a]
  | b :: bs => if strLt a.1 b.1 then a :: b :: bs else b :: insertPair a bs

/-- Sort key/value pairs by key, modelling `keys.sort_by(|(k1,_),(k2,_)| k1.cmp(k2))`
in `Jwk::thumbprint`. -/
def sortPairs : List (String × String) → List (String × String)
  | [] => []
  | a :: as => insertPair a (sortPairs as)

/-! ### Keys and JWKs (`src/jws.rs`) -/

/-- OpenSSL curve identifiers, as far as the code inspects them. -/
inductive Nid
  | X9_62_PRIME256V1
  | otherCurve (n : Nat)
deriving DecidableEq, Repr

/-- A private key as `Jwk::new` observes it through OpenSSL:
an RSA key exposes the big-endian bytes of `e` and `n` (`BigNum::to_vec`,
which emits no leading zero bytes); an EC key exposes its curve and the
uncompressed public point bytes (`0x04 || x || y`, 65 bytes for P-256);
anything else (the `unsupported` arm) fails both `pkey.rsa()` and
`pkey.ec_key()` downcasts. -/
inductive PKey
  | rsa (e n : List Nat)
  | ec (curve : Nid) (point : List Nat)
  | unsupported (desc : String)
deriving DecidableEq, Repr

/-- The `Jwk` enum of `src/jws.rs` (serde-tagged by `kty`). -/
inductive Jwk
  | Rsa (e n : String)
  | Ec (crv x y : String)
deriving DecidableEq, Repr

/-- Error type as the embedded code constructs it. `Other` is
`Error::Other(String)` from `jws.rs`; `Anyhow` stands for the
`anyhow::anyhow!(...)` messages of `directory.rs`/`account.rs`; `AcmeErr`
is a lifted RFC 7807 problem document; `JsonErr` a `serde_json` decode
failure; `Msg` is `ErrorKind::Msg` of the older error type used by
`old/challenge.rs`. -/
structure AcmeError where
  typ : Option String
  title : Option String
  status : Option Nat
  detail : Option String
deriving DecidableEq, Repr

inductive Error
  | Other (msg : String)
  | Anyhow (msg : String)
  | AcmeErr (e : AcmeError)
  | JsonErr (msg : String)
  | Msg (msg : String)
deriving DecidableEq, Repr

/-- `Jwk::new_from_rsa`: base64url the public exponent and modulus bytes. -/
def Jwk.new_from_rsa (e n : List Nat) : Jwk := .Rsa (b64 e) (b64 n)

/-- `Jwk::new_from_p256`: drop the `0x04` uncompressed-point marker and split
the remainder into the two coordinates. (The source asserts the point is
65 bytes long; theorems that need coordinate shape carry that as a
hypothesis.) -/
def Jwk.new_from_p256 (point : List Nat) : Jwk :=
  let bytes := point.drop 1
  .Ec "P-256" (b64 (bytes.take (bytes.length / 2))) (b64 (bytes.drop (bytes.length / 2)))

/-- `Jwk::new`: RSA keys first, then EC keys on P-256, everything else is
`Error::Other("unsupported private key type")`. -/
def Jwk.new : PKey → Except Error Jwk
  | .rsa e n => .ok (Jwk.new_from_rsa e n)
  | .ec curve point =>
    if curve = Nid.X9_62_PRIME256V1 then .ok (Jwk.new_from_p256 point)
    else .error (.Other "unsupported private key type")
  | .unsupported _ => .error (.Other "unsupported private key type")

/-! ### ES256 DER → raw conversion and signing (`Jwk::sign_sha256`) -/

/-- The `if r[0] == 0 { r = &r[1..] }` step of `sign_sha256`: strip the
ASN.1 sign byte only when it is actually present. -/
def stripSignByte : List Nat → List Nat
  | 0 :: rest => rest
  | r => r

/-- Left-pad a component to `COMPONENT_SIZE = 32` bytes, as the
`copy_from_slice` into the zero-initialised 64-byte buffer does. -/
def padTo32 (r : List Nat) : List Nat := List.replicate (32 - r.length) 0 ++ r

/-- The whole DER-components → `r || s` conversion of `sign_sha256`'s EC arm,
starting from the two ASN.1 `INTEGER` content byte strings. -/
def ecdsaDerToRaw (r s : List Nat) : List Nat :=
  padTo32 (stripSignByte r) ++ padTo32 (stripSignByte s)

/-- External cryptography, passed as oracles: `signToVec` is the OpenSSL
`Signer` (RSASSA-PKCS1-v1_5 for RSA keys, DER-encoded ECDSA for EC keys) and
`derParse` is `asn1::parse` returning the two `INTEGER` content byte strings. -/
structure Crypto where
  signToVec : List Nat → List Nat
  derParse : List Nat → Except String (List Nat × List Nat)

/-- `Jwk::sign_sha256`: RSA signatures pass through unchanged; EC signatures
are DER-parsed and converted to the fixed 64-byte `r || s` form. -/
def Jwk.sign_sha256 (c : Crypto) (jwk : Jwk) (payload : List Nat) :
    Except Error (List Nat) :=
  let bytes := c.signToVec payload
  match jwk with
  | .Rsa _ _ => .ok bytes
  | .Ec _ _ _ =>
    match c.derParse bytes with
    | .error e => .error (.Other e)
    | .ok (r, s) => .ok (ecdsaDerToRaw r s)

/-! ### Thumbprints (`Jwk::thumbprint`) -/

/-- The JSON pairs `serde_json::to_value` produces for a `Jwk`: the serde tag
`kty` first, then the variant fields in declaration order. -/
def Jwk.toJsonPairs : Jwk → List (String × String)
  | .Rsa e n => [("kty", "RSA"), ("e", e), ("n", n)]
  | .Ec crv x y => [("kty", "EC"), ("crv", crv), ("x", x), ("y", y)]

/-- The canonical serialization `Jwk::thumbprint` hashes: the JWK object with
its keys sorted byte-wise and rendered compactly. -/
def Jwk.thumbprintSerialization (jwk : Jwk) : String :=
  renderStrObj (sortPairs jwk.toJsonPairs)

/-- `Jwk::thumbprint`, with SHA-256 as an oracle:
`b64(sha256(serialized))`. -/
def Jwk.thumbprint (sha256 : List Nat → List Nat) (jwk : Jwk) : String :=
  b64 (sha256 (strBytes (Jwk.thumbprintSerialization jwk)))

/-! ### JWS assembly (`jws` in `src/jws.rs`) -/

/-- The `JwsHeader` struct. `kid` and `jwk` carry
`#[serde(skip_serializing_if = "Option::is_none")]`. -/
structure JwsHeader where
  nonce : String
  alg : String
  url : String
  kid : Option String := none
  jwk : Option Jwk := none
deriving DecidableEq, Repr

/-- The serialized form of a header: serde emits fields in declaration order
and omits `kid`/`jwk` when `None`. -/
def JwsHeader.serializedPairs (h : JwsHeader) : List (String × JVal) :=
  [("nonce", .str h.nonce), ("alg", .str h.alg), ("url", .str h.url)] ++
    (match h.kid with | some k => [("kid", JVal.str k)] | none => []) ++
    (match h.jwk with | some j => [("jwk", JVal.obj j.toJsonPairs)] | none => [])

/-- The `alg` selection match in `jws`: `Jwk::Rsa → "RS256"`,
`Jwk::Ec with crv == "P-256" → "ES256"`; the remaining arm is
`unreachable!` in the source, modelled as `none`. -/
def algOf : Jwk → Option String
  | .Rsa _ _ => some "RS256"
  | .Ec crv _ _ => if crv = "P-256" then some "ES256" else none

/-- Result of a successful `jws` call, keeping the intermediate pieces
inspectable next to the rendered output string. -/
structure JwsOut where
  header : JwsHeader
  protected_b64 : String
  payload_b64 : String
  signature_b64 : String
  pairs : List (String × JVal)
  rendered : String
deriving DecidableEq, Repr

/-- The header-population step of `jws`: a default-initialised header gets
`kid` set when an account id was supplied, and the embedded `jwk` otherwise. -/
def mkJwsHeader (nonce alg url : String) (account_id : Option String)
    (jwk : Jwk) : JwsHeader :=
  let header0 : JwsHeader := { nonce := nonce, alg := alg, url := url }
  match account_id with
  | some kid => { header0 with kid := some kid }
  | none => { header0 with jwk := some jwk }

/-- The straight-line tail of `jws` once the JWK and `alg` are fixed:
serialize the header, sign `protected || "." || payload`, assemble the
three-field flattened-JSON object. -/
def jwsAssemble (c : Crypto) (url nonce payload : String) (jwk : Jwk)
    (alg : String) (account_id : Option String) : Except Error JwsOut :=
  let payload_b64 := b64 (strBytes payload)
  let header := mkJwsHeader nonce alg url account_id jwk
  let protected_b64 := b64 (strBytes (renderObj header.serializedPairs))
  let to_sign := protected_b64 ++ "." ++ payload_b64
  match Jwk.sign_sha256 c jwk (strBytes to_sign) with
  | .error e => .error e
  | .ok sig =>
    let signature_b64 := b64 sig
    let pairs : List (String × JVal) :=
      [("protected", .str protected_b64), ("payload", .str payload_b64),
        ("signature", .str signature_b64)]
    .ok ⟨header, protected_b64, payload_b64, signature_b64, pairs,
      renderObj pairs⟩

/-- The `jws` function of `src/jws.rs`. A `.ok none` result models the
`unreachable!` panic in the `alg` match (shown unreachable below). -/
def jws (c : Crypto) (url : String) (nonce : String) (payload : String)
    (pkey : PKey) (account_id : Option String) : Except Error (Option JwsOut) :=
  match Jwk.new pkey with
  | .error e => .error e
  | .ok jwk =>
    match algOf jwk with
    | none => .ok none
    | some alg =>
      match jwsAssemble c url nonce payload jwk alg account_id with
      | .error e => .error e
      | .ok out => .ok (some out)

/-- The payload `Order::authorizations` (`src/authorization.rs`) passes for
its POST-as-GET requests: the literal empty string. -/
def authorizationsPayload : String := ""

/-! ### Directory, nonce cache and authenticated requests (`src/directory.rs`) -/

inductive Method
  | GET
  | HEAD
  | POST
deriving DecidableEq, Repr

structure HttpRequest where
  method : Method
  url : String
deriving DecidableEq, Repr

/-- The observable part of a `newNonce` response: its `Replay-Nonce` header. -/
structure NonceResponse where
  replayNonce : Option String
deriving DecidableEq, Repr

/-- Result of `Directory::get_nonce`: the returned value, the nonce slot after
the call, and the network requests that were issued. -/
structure GetNonceOut where
  result : Except Error String
  cache : Option String
  requests : List HttpRequest
deriving Repr

/-- `Directory::get_nonce`: drain the single-slot cache if filled, otherwise
issue one GET to `new_nonce_url` and take its `Replay-Nonce` header, failing
when the header is absent. -/
def get_nonce (cache : Option String) (new_nonce_url : String)
    (resp : NonceResponse) : GetNonceOut :=
  match cache with
  | some nonce => ⟨.ok nonce, none, []⟩
  | none =>
    match resp.replayNonce with
    | some nonce => ⟨.ok nonce, none, [⟨.GET, new_nonce_url⟩]⟩
    | none =>
      ⟨.error (.Anyhow "newNonce request must return a nonce"), none,
        [⟨.GET, new_nonce_url⟩]⟩

/-- The untagged `AcmeResult<T>` sum from `src/resources.rs`: a successfully
parsed `T` or an RFC 7807 problem document. -/
inductive AcmeResult (T : Type)
  | ok (t : T)
  | err (e : AcmeError)
deriving DecidableEq, Repr

/-- The headers of a POST response that the code inspects. -/
structure Headers where
  replayNonce : Option String
  location : Option String
deriving DecidableEq, Repr

/-- A POST response: headers plus the outcome of `serde_json::from_str` on its
body text. -/
structure PostResponse (T : Type) where
  headers : Headers
  body : Except String (AcmeResult T)

/-- Result of `Directory::authenticated_request`: outer `none` models the
`unreachable!` panic inherited from `jws` (shown unreachable below); the
nonce slot after the call; and the requests issued, in order. -/
structure AuthReqOut (T : Type) where
  result : Option (Except Error (AcmeResult T × Headers))
  cache : Option String
  requests : List HttpRequest

/-- `Directory::authenticated_request`: take a nonce, sign the payload, POST
once, absorb a `Replay-Nonce` header from the response regardless of status,
and hand the parsed body (success or problem document) plus the headers back
to the caller. There is no retry of any kind in the source. -/
def authenticated_request (T : Type) (cache : Option String)
    (new_nonce_url : String) (c : Crypto) (url : String) (payload : String)
    (pkey : PKey) (pkey_id : Option String) (nonceResp : NonceResponse)
    (postResp : PostResponse T) : AuthReqOut T :=
  let gn := get_nonce cache new_nonce_url nonceResp
  match gn.result with
  | .error e => ⟨some (.error e), gn.cache, gn.requests⟩
  | .ok nonce =>
    match jws c url nonce payload pkey pkey_id with
    | .error e => ⟨some (.error e), gn.cache, gn.requests⟩
    | .ok none => ⟨none, gn.cache, gn.requests⟩
    | .ok (some _) =>
      let requests := gn.requests ++ [⟨.POST, url⟩]
      let cache2 :=
        match postResp.headers.replayNonce with
        | some n => some n
        | none => gn.cache
      match postResp.body with
      | .error msg => ⟨some (.error (.JsonErr msg)), cache2, requests⟩
      | .ok v => ⟨some (.ok (v, postResp.headers)), cache2, requests⟩

/-- The `urn:ietf:params:acme:error:badNonce` problem type (RFC 8555 §6.7). -/
def badNonceType : String := "urn:ietf:params:acme:error:badNonce"

/-! ### Account registration (`src/account.rs`, `src/register.rs`) -/

inductive AccountStatus
  | Valid
  | Deactivated
  | Revoked
deriving DecidableEq, Repr

/-- The fields of `Account` that `newAccount`'s response body populates
(the `#[serde(skip)]` fields `private_key`/`private_key_id`/`directory` are
filled in by `AccountBuilder::build` afterwards). -/
structure AccountDe where
  status : AccountStatus
  contact : Option (List String)
  terms_of_service_agreed : Option Bool
deriving DecidableEq, Repr

/-- The `Account` struct of `src/account.rs` (the `directory` back-reference
is omitted: the embedding passes directory state explicitly). -/
structure Account where
  private_key : Option PKey
  private_key_id : String
  status : AccountStatus
  contact : Option (List String)
  terms_of_service_agreed : Option Bool
deriving DecidableEq, Repr

/-- `Account::private_key` unwraps the optional key; `none` here models the
panic of `Option::unwrap` on an unset key. -/
def Account.private_key_unwrap (a : Account) : Option PKey := a.private_key

/-- The configurable state of an `AccountBuilder`. -/
structure AccountBuilderSt where
  private_key : Option PKey
  contact : Option (List String)
  terms_of_service_agreed : Option Bool
  only_return_existing : Option Bool
deriving DecidableEq, Repr

/-- `serde_json::json!` serialization of an optional bool: `None` is `null`. -/
def optBoolJVal : Option Bool → JVal
  | some b => .jbool b
  | none => .null

/-- `serde_json::json!` serialization of an optional string list. -/
def optArrJVal : Option (List String) → JVal
  | some xs => .arr xs
  | none => .null

/-- The `json!({...})` payload `AccountBuilder::build` sends to `newAccount`,
with keys in the literal's order. -/
def newAccountPayloadPairs (b : AccountBuilderSt) : List (String × JVal) :=
  [("contact", optArrJVal b.contact),
    ("termsOfServiceAgreed", optBoolJVal b.terms_of_service_agreed),
    ("onlyReturnExisting", optBoolJVal b.only_return_existing)]

/-- `AccountBuilder::build`. `gen_rsa_private_key` is the key-generation
helper from the repository's `helpers` module, which is not under `src/`;
modelled from the spec: "If no key is supplied, generate a fresh 4096-bit RSA
key", as an oracle applied at bit size 4096 exactly as the call site does.
The outer `none` models the `unreachable!` panic inherited from `jws`. -/
def AccountBuilder.build (b : AccountBuilderSt) (gen_rsa_private_key : Nat → PKey)
    (cache : Option String) (new_nonce_url new_account_url : String) (c : Crypto)
    (nonceResp : NonceResponse) (postResp : PostResponse AccountDe) :
    Option (Except Error Account) :=
  let private_key :=
    match b.private_key with
    | some k => k
    | none => gen_rsa_private_key 4096
  let ar := authenticated_request AccountDe cache new_nonce_url c
    new_account_url (renderObj (newAccountPayloadPairs b)) private_key none
    nonceResp postResp
  match ar.result with
  | none => none
  | some (.error e) => some (.error e)
  | some (.ok (res, headers)) =>
    match res with
    | .err pd => some (.error (.AcmeErr pd))
    | .ok acc =>
      match headers.location with
      | none =>
        some (.error (.Anyhow "mandatory location header in newAccount not present"))
      | some loc =>
        some (.ok ⟨some private_key, loc, acc.status, acc.contact,
          acc.terms_of_service_agreed⟩)

/-- The configurable state of an `AccountRegistration` (`src/register.rs`). -/
structure AccountRegistrationSt where
  pkey : Option PKey
  email : Option String
  contact : Option (List String)
  agreement : Option String
deriving DecidableEq, Repr

/-- The `RegisterRequest` struct of `src/register.rs` (camelCase serde). -/
structure RegisterRequest where
  terms_of_service_agreed : Bool
deriving DecidableEq, Repr

/-- The request value `AccountRegistration::register` constructs: the literal
`RegisterRequest { terms_of_service_agreed: true }`, for every configuration. -/
def AccountRegistration.registerRequest (_r : AccountRegistrationSt) :
    RegisterRequest :=
  ⟨true⟩

/-- Serialization pairs of a `RegisterRequest` (rename_all = "camelCase"). -/
def RegisterRequest.toPairs (rq : RegisterRequest) : List (String × JVal) :=
  [("termsOfServiceAgreed", .jbool rq.terms_of_service_agreed)]

/-! ### The old challenge polling loop (`old/challenge.rs`) -/

/-- The polling loop inside `Challenge::validate`, as a fuelled step function.
`status` is the status string of the challenge currently held; `polls k` is
the status the server would report on the `k`-th re-poll; the result carries
how many re-polls were performed. `none` means the loop did not terminate
within `fuel` iterations. Each iteration: a `"pending"` status re-polls the
challenge URL, `"valid"` returns `Ok(())`, `"invalid"` returns the fixed
`ErrorKind::Msg("Invalid response.")`, and any other status (notably
`"processing"`) just sleeps for the poll interval and re-checks the same,
unchanged, status. -/
def validateLoop : Nat → String → (Nat → String) → Nat →
    Option (Except Error Unit × Nat)
  | 0, _, _, _ => none
  | fuel + 1, status, polls, k =>
    if status = "pending" then validateLoop fuel (polls k) polls (k + 1)
    else if status = "valid" then some (.ok (), k)
    else if status = "invalid" then some (.error (.Msg "Invalid response."), k)
    else validateLoop fuel status polls k

/-- `Challenge::validate`: trigger the challenge (only statuses 200 and 202
are accepted), then run the polling loop on the status the trigger response
reported. -/
def Challenge.validate (triggerStatus : Nat) (initialStatus : String)
    (polls : Nat → String) (fuel : Nat) : Option (Except Error Unit × Nat) :=
  if triggerStatus ≠ 202 ∧ triggerStatus ≠ 200 then
    some (.error (.Msg "Unacceptable status when trying to validate"), 0)
  else validateLoop fuel initialStatus polls 0

end Acme2

namespace Acme2

/-! ## Shared lemmas -/

/-- `jwsAssemble` characterisation: a successful call fixes every component of
the output from the inputs. -/
theorem jwsAssemble_ok_elim (c : Crypto) (url nonce payload : String)
    (jwk : Jwk) (alg : String) (account_id : Option String) (out : JwsOut)
    (h : jwsAssemble c url nonce payload jwk alg account_id = .ok out) :
    ∃ sig, out.header = mkJwsHeader nonce alg url account_id jwk ∧
      out.payload_b64 = b64 (strBytes payload) ∧
      out.protected_b64 = b64 (strBytes (renderObj out.header.serializedPairs)) ∧
      Jwk.sign_sha256 c jwk
        (strBytes (out.protected_b64 ++ "." ++ out.payload_b64)) = .ok sig ∧
      out.signature_b64 = b64 sig ∧
      out.pairs = [("protected", .str out.protected_b64),
        ("payload", .str out.payload_b64), ("signature", .str out.signature_b64)] ∧
      out.rendered = renderObj out.pairs := by
  unfold jwsAssemble at h
  dsimp only [] at h
  split at h
  · exact absurd h (by simp)
  · rename_i sig hsig
    simp only [Except.ok.injEq] at h
    subst h
    exact ⟨sig, rfl, rfl, rfl, hsig, rfl, rfl, rfl⟩

/-- `jws` characterisation: a successful call goes through `Jwk::new`, the
`alg` match, and `jwsAssemble`. -/
theorem jws_ok_elim (c : Crypto) (url nonce payload : String) (pkey : PKey)
    (account_id : Option String) (out : JwsOut)
    (h : jws c url nonce payload pkey account_id = .ok (some out)) :
    ∃ jwk alg, Jwk.new pkey = .ok jwk ∧ algOf jwk = some alg ∧
      jwsAssemble c url nonce payload jwk alg account_id = .ok out := by
  unfold jws at h
  split at h
  · exact absurd h (by simp)
  · rename_i jwk hnew
    split at h
    · exact absurd h (by simp)
    · rename_i alg halg
      split at h
      · exact absurd h (by simp)
      · rename_i o ho
        simp only [Except.ok.injEq, Option.some.injEq] at h
        subst h
        exact ⟨jwk, alg, hnew, halg, ho⟩

/-- `Jwk::new` only ever constructs JWKs whose `alg` match succeeds, so the
`unreachable!` arm of `jws` is indeed unreachable. -/
theorem algOf_new (pkey : PKey) (jwk : Jwk) (h : Jwk.new pkey = .ok jwk) :
    algOf jwk = some "RS256" ∨ algOf jwk = some "ES256" := by
  cases pkey with
  | rsa e n =>
    simp only [Jwk.new, Except.ok.injEq] at h
    subst h
    left; rfl
  | ec curve point =>
    simp only [Jwk.new] at h
    split at h
    · simp only [Except.ok.injEq] at h
      subst h
      right; rfl
    · exact absurd h (by simp)
  | unsupported d => exact absurd h (by simp [Jwk.new])

/-! ## C3 -/

/-- **C3** Every JWS protected header produced by `jws` contains exactly one
of `jwk` and `kid`: `kid` (set to the supplied account id) when an account id
is given, the embedded `jwk` otherwise; never both, never neither — both on
the struct and in its serialized field list. -/
theorem jws_header_exactly_one_of_jwk_kid (c : Crypto) (url nonce payload : String)
    (pkey : PKey) (account_id : Option String) (out : JwsOut)
    (h : jws c url nonce payload pkey account_id = .ok (some out)) :
    ((out.header.kid.isSome ∧ out.header.jwk = none) ∨
      (out.header.kid = none ∧ out.header.jwk.isSome)) ∧
    (∀ kid, account_id = some kid →
      out.header.kid = some kid ∧ out.header.jwk = none) ∧
    (account_id = none → out.header.kid = none ∧
      ∃ jwk, Jwk.new pkey = .ok jwk ∧ out.header.jwk = some jwk) ∧
    (out.header.serializedPairs.map Prod.fst).count "kid" +
      (out.header.serializedPairs.map Prod.fst).count "jwk" = 1 := by
  obtain ⟨jwk, alg, hnew, halg, hasm⟩ :=
    jws_ok_elim c url nonce payload pkey account_id out h
  obtain ⟨sig, hhdr, -⟩ := jwsAssemble_ok_elim _ _ _ _ _ _ _ _ hasm
  rw [hhdr]
  cases account_id with
  | some kid =>
    refine ⟨Or.inl ⟨rfl, rfl⟩, ?_, ?_, ?_⟩
    · intro k hk
      simp only [Option.some.injEq] at hk
      subst hk
      exact ⟨rfl, rfl⟩
    · intro hn; cases hn
    · simp +decide [mkJwsHeader, JwsHeader.serializedPairs]
  | none =>
    refine ⟨Or.inr ⟨rfl, rfl⟩, ?_, ?_, ?_⟩
    · intro k hk; cases hk
    · exact fun _ => ⟨rfl, jwk, hnew, rfl⟩
    · simp +decide [mkJwsHeader, JwsHeader.serializedPairs]

/-- The populated header's `alg` field is the selected algorithm, in both
authentication modes. -/
theorem mkJwsHeader_alg (nonce alg url : String) (account_id : Option String)
    (jwk : Jwk) : (mkJwsHeader nonce alg url account_id jwk).alg = alg := by
  cases account_id <;> rfl

/-! ## C4 -/

/-- **C4** With the literal empty string as payload (the POST-as-GET case used
by `Order::authorizations`), the JWS `payload` field is the base64url encoding
of zero bytes — the empty string — and differs from the encodings of the four
characters `null` and of the two characters `""`. -/
theorem jws_empty_payload_encoding (c : Crypto) (url nonce : String)
    (pkey : PKey) (account_id : Option String) (out : JwsOut)
    (h : jws c url nonce authorizationsPayload pkey account_id = .ok (some out)) :
    out.payload_b64 = "" ∧
    out.payload_b64 = b64 [] ∧
    out.pairs.lookup "payload" = some (.str "") ∧
    b64 (strBytes "null") = "bnVsbA" ∧
    b64 (strBytes "\"\"") = "IiI" ∧
    out.payload_b64 ≠ b64 (strBytes "null") ∧
    out.payload_b64 ≠ b64 (strBytes "\"\"") := by
  obtain ⟨jwk, alg, hnew, halg, hasm⟩ :=
    jws_ok_elim c url nonce authorizationsPayload pkey account_id out h
  obtain ⟨sig, hhdr, hp, hprot, hsig, hsb, hpairs, hr⟩ :=
    jwsAssemble_ok_elim _ _ _ _ _ _ _ _ hasm
  have hempty : out.payload_b64 = "" := by
    rw [hp]; rfl
  refine ⟨hempty, by rw [hempty]; rfl, ?_, by decide, by decide, ?_, ?_⟩
  · rw [hpairs, hempty]
    simp +decide [List.lookup]
  · rw [hempty]; decide
  · rw [hempty]; decide

/-! ## C8 -/

/-- **C8** Keys that are neither RSA nor EC-on-P-256 are rejected:
`Jwk::new` (and hence `jws`, which produces no JWS) fails with the
unsupported-key error `Error::Other("unsupported private key type")`; RSA
keys get `alg = "RS256"` and P-256 keys get `alg = "ES256"`. -/
theorem unsupported_keys_rejected (c : Crypto) (url nonce payload : String)
    (account_id : Option String) :
    (∀ pkey : PKey, (∀ e n, pkey ≠ .rsa e n) →
      (∀ pt, pkey ≠ .ec .X9_62_PRIME256V1 pt) →
      Jwk.new pkey = .error (.Other "unsupported private key type") ∧
      jws c url nonce payload pkey account_id =
        .error (.Other "unsupported private key type")) ∧
    (∀ e n out,
      jws c url nonce payload (.rsa e n) account_id = .ok (some out) →
      out.header.alg = "RS256") ∧
    (∀ pt out,
      jws c url nonce payload (.ec .X9_62_PRIME256V1 pt) account_id = .ok (some out) →
      out.header.alg = "ES256") := by
  refine ⟨?_, ?_, ?_⟩
  · intro pkey h1 h2
    cases pkey with
    | rsa e n => exact absurd rfl (h1 e n)
    | ec curve point =>
      cases curve with
      | X9_62_PRIME256V1 => exact absurd rfl (h2 point)
      | otherCurve m =>
        constructor
        · simp [Jwk.new]
        · simp [jws, Jwk.new]
    | unsupported d =>
      constructor
      · simp [Jwk.new]
      · simp [jws, Jwk.new]
  · intro e n out h
    obtain ⟨jwk, alg, hnew, halg, hasm⟩ := jws_ok_elim _ _ _ _ _ _ _ h
    obtain ⟨sig, hhdr, -⟩ := jwsAssemble_ok_elim _ _ _ _ _ _ _ _ hasm
    simp only [Jwk.new, Except.ok.injEq] at hnew
    subst hnew
    simp only [Jwk.new_from_rsa, algOf, Option.some.injEq] at halg
    rw [hhdr, mkJwsHeader_alg, ← halg]
  · intro pt out h
    obtain ⟨jwk, alg, hnew, halg, hasm⟩ := jws_ok_elim _ _ _ _ _ _ _ h
    obtain ⟨sig, hhdr, -⟩ := jwsAssemble_ok_elim _ _ _ _ _ _ _ _ hasm
    have hr : Jwk.new (.ec .X9_62_PRIME256V1 pt) = .ok (Jwk.new_from_p256 pt) := rfl
    rw [hr] at hnew
    simp only [Except.ok.injEq] at hnew
    subst hnew
    have halg2 : algOf (Jwk.new_from_p256 pt) = some "ES256" := rfl
    rw [halg2] at halg
    simp only [Option.some.injEq] at halg
    rw [hhdr, mkJwsHeader_alg, ← halg]

/-! ## C1 -/

/-- Big-endian integer value of a byte string. -/
def beVal (bs : List Nat) : Nat := bs.foldl (fun a b => a * 256 + b) 0

/-- Folding the big-endian accumulator over leading zeros keeps it at zero. -/
theorem foldl_be_zeros (k : Nat) :
    (List.replicate k 0).foldl (fun a b => a * 256 + b) 0 = 0 := by
  induction k with
  | zero => rfl
  | succ m ih => simpa [List.replicate_succ] using ih

/-- Left-padding with zero bytes preserves the big-endian value. -/
theorem beVal_padTo32 (r : List Nat) : beVal (padTo32 r) = beVal r := by
  unfold beVal padTo32
  rw [List.foldl_append, foldl_be_zeros]

/-- Stripping the sign byte preserves the big-endian value. -/
theorem beVal_stripSignByte (r : List Nat) : beVal (stripSignByte r) = beVal r := by
  match r with
  | [] => rfl
  | 0 :: t => rfl
  | (b + 1) :: t => rfl

/-- When a component is at most 32 bytes, padding makes it exactly 32. -/
theorem padTo32_length (r : List Nat) (h : r.length ≤ 32) :
    (padTo32 r).length = 32 := by
  unfold padTo32
  simp [List.length_append, List.length_replicate]
  omega

/-- **C1** The ES256 path of `Jwk::sign_sha256` turns the DER-encoded ECDSA
signature components `r`, `s` into exactly 64 bytes `r || s`: a leading zero
sign byte is stripped only when actually present, each component is
left-padded with zeros to exactly 32 bytes (preserving its integer value),
and for an ASN.1 `r` of the form `0x00 0xFF …` the first output component is
32 bytes starting with `0xFF`. -/
theorem es256_signature_conversion (c : Crypto) (crv x y : String)
    (msg r s : List Nat)
    (hparse : c.derParse (c.signToVec msg) = .ok (r, s))
    (hrlen : (stripSignByte r).length ≤ 32)
    (hslen : (stripSignByte s).length ≤ 32) :
    Jwk.sign_sha256 c (.Ec crv x y) msg = .ok (ecdsaDerToRaw r s) ∧
    (ecdsaDerToRaw r s).length = 64 ∧
    (ecdsaDerToRaw r s).take 32 = padTo32 (stripSignByte r) ∧
    (ecdsaDerToRaw r s).drop 32 = padTo32 (stripSignByte s) ∧
    beVal ((ecdsaDerToRaw r s).take 32) = beVal r ∧
    beVal ((ecdsaDerToRaw r s).drop 32) = beVal s ∧
    (∀ b t, r = b :: t → b ≠ 0 → stripSignByte r = r) ∧
    (∀ t, r = 0 :: t → stripSignByte r = t) ∧
    (∀ t, r = 0 :: 255 :: t → t.length = 31 →
      (ecdsaDerToRaw r s).take 32 = 255 :: t) := by
  have hre : (padTo32 (stripSignByte r)).length = 32 := padTo32_length _ hrlen
  have hse : (padTo32 (stripSignByte s)).length = 32 := padTo32_length _ hslen
  have htake : (ecdsaDerToRaw r s).take 32 = padTo32 (stripSignByte r) :=
    List.take_left' hre
  have hdrop : (ecdsaDerToRaw r s).drop 32 = padTo32 (stripSignByte s) :=
    List.drop_left' hre
  refine ⟨?_, ?_, htake, hdrop, ?_, ?_, ?_, ?_, ?_⟩
  · simp [Jwk.sign_sha256, hparse]
  · unfold ecdsaDerToRaw
    rw [List.length_append, hre, hse]
  · rw [htake, beVal_padTo32, beVal_stripSignByte]
  · rw [hdrop, beVal_padTo32, beVal_stripSignByte]
  · intro b t hbt hb
    subst hbt
    cases b with
    | zero => exact absurd rfl hb
    | succ m => rfl
  · intro t ht
    subst ht
    rfl
  · intro t ht hlen
    subst ht
    rw [htake]
    have : stripSignByte (0 :: 255 :: t) = 255 :: t := rfl
    rw [this]
    unfold padTo32
    simp [hlen]

/-! ## C6 -/

/-- **C6 (counterexample)** With an empty nonce slot, `get_nonce` issues a
single GET to the newNonce URL; it never issues a HEAD request, so the claim
that it "performs a HEAD request to newNonce (or GET as a fallback)" is false
on the code at this concrete input. -/
theorem get_nonce_uses_get_not_head :
    (get_nonce none "https://ca.example/new-nonce" ⟨some "nonce-1"⟩).requests =
      [⟨Method.GET, "https://ca.example/new-nonce"⟩] ∧
    ((get_nonce none "https://ca.example/new-nonce" ⟨some "nonce-1"⟩).requests.countP
      (fun rq => decide (rq.method = Method.HEAD))) = 0 := by
  exact ⟨rfl, rfl⟩

/-- **C6 (amended)** `get_nonce` returns the cached nonce and clears the slot
when one is present (no network traffic); when the slot is empty it performs
one GET request to the newNonce URL and returns that response's Replay-Nonce
header, failing with the missing-nonce protocol error when the header is
absent. -/
theorem get_nonce_spec (cache : Option String) (u : String)
    (resp : NonceResponse) :
    (∀ n, cache = some n → get_nonce cache u resp = ⟨.ok n, none, []⟩) ∧
    (cache = none →
      (get_nonce cache u resp).requests = [⟨.GET, u⟩] ∧
      (get_nonce cache u resp).cache = none ∧
      (∀ n, resp.replayNonce = some n →
        (get_nonce cache u resp).result = .ok n) ∧
      (resp.replayNonce = none → (get_nonce cache u resp).result =
        .error (.Anyhow "newNonce request must return a nonce"))) := by
  constructor
  · intro n hn
    subst hn
    rfl
  · intro hn
    subst hn
    obtain ⟨rn⟩ := resp
    cases rn with
    | some n =>
      refine ⟨rfl, rfl, ?_, ?_⟩
      · intro m hm
        injection hm with hm
        subst hm
        rfl
      · intro hcontra
        cases hcontra
    | none =>
      refine ⟨rfl, rfl, ?_, fun _ => rfl⟩
      intro m hm
      cases hm

/-! ## C2 -/

/-- `get_nonce` never issues a POST request. -/
theorem get_nonce_no_post (cache : Option String) (u : String)
    (resp : NonceResponse) :
    ((get_nonce cache u resp).requests.countP
      (fun rq => decide (rq.method = Method.POST))) = 0 := by
  obtain ⟨rn⟩ := resp
  cases cache <;> cases rn <;> rfl

/-- **C2 (divergence)** When the POST response is a badNonce problem document,
`authenticated_request` performs exactly one POST and hands the problem
document straight back to the caller: the source contains no retry of any
kind. -/
theorem authenticated_request_no_badNonce_retry (T : Type)
    (cache : Option String) (nurl : String) (c : Crypto) (url payload : String)
    (pkey : PKey) (pkey_id : Option String) (nr : NonceResponse)
    (pr : PostResponse T) (nonce : String) (out : JwsOut) (pd : AcmeError)
    (hn : (get_nonce cache nurl nr).result = .ok nonce)
    (hj : jws c url nonce payload pkey pkey_id = .ok (some out))
    (hbody : pr.body = .ok (.err pd))
    (hbad : pd.typ = some badNonceType) :
    (authenticated_request T cache nurl c url payload pkey pkey_id nr pr).result =
      some (.ok (.err pd, pr.headers)) ∧
    ((authenticated_request T cache nurl c url payload pkey pkey_id nr pr).requests.countP
      (fun rq => decide (rq.method = Method.POST))) = 1 := by
  unfold authenticated_request
  dsimp only []
  rw [hn]
  dsimp only []
  rw [hj]
  dsimp only []
  rw [hbody]
  dsimp only []
  refine ⟨rfl, ?_⟩
  rw [List.countP_append, get_nonce_no_post]
  rfl

/-! ## C7 -/

/-- **C7 (divergence)** The old `AccountRegistration::register` path sends the
constant `termsOfServiceAgreed = true` whatever the caller configured, while
the `AccountBuilder::build` path sends exactly the caller's configured value
(JSON `null` when the caller did not set it). -/
theorem newAccount_terms_of_service_payload :
    (∀ r : AccountRegistrationSt,
      (AccountRegistration.registerRequest r).toPairs =
        [("termsOfServiceAgreed", JVal.jbool true)]) ∧
    (∀ b : AccountBuilderSt,
      ((newAccountPayloadPairs b).lookup "termsOfServiceAgreed") =
        some (optBoolJVal b.terms_of_service_agreed)) := by
  constructor
  · intro r
    rfl
  · intro b
    simp +decide [newAccountPayloadPairs, List.lookup]

/-! ## C9 -/

/-- **C9 (divergence)** The polling loop of the old `Challenge::validate`
re-polls the challenge URL only on status "pending". On status "processing"
it never re-polls and never terminates, however much fuel it is given;
"valid" and "invalid" are terminal, and "invalid" yields the fixed message
`Invalid response.` carrying no server problem information. -/
theorem challenge_validate_polling :
    (∀ fuel polls k, validateLoop fuel "processing" polls k = none) ∧
    (∀ fuel polls k, validateLoop (fuel + 1) "pending" polls k =
      validateLoop fuel (polls k) polls (k + 1)) ∧
    (∀ fuel polls k, validateLoop (fuel + 1) "valid" polls k =
      some (.ok (), k)) ∧
    (∀ fuel polls k, validateLoop (fuel + 1) "invalid" polls k =
      some (.error (.Msg "Invalid response."), k)) ∧
    (∀ polls fuel, Challenge.validate 200 "processing" polls fuel = none) := by
  have hproc : ∀ fuel polls k, validateLoop fuel "processing" polls k = none := by
    intro fuel
    induction fuel with
    | zero => intro polls k; rfl
    | succ m ih =>
      intro polls k
      rw [show validateLoop (m + 1) "processing" polls k =
        validateLoop m "processing" polls k from by simp +decide [validateLoop]]
      exact ih polls k
  refine ⟨hproc, ?_, ?_, ?_, ?_⟩
  · intro fuel polls k
    simp +decide [validateLoop]
  · intro fuel polls k
    simp +decide [validateLoop]
  · intro fuel polls k
    simp +decide [validateLoop]
  · intro polls fuel
    rw [show Challenge.validate 200 "processing" polls fuel =
      validateLoop fuel "processing" polls 0 from by simp +decide [Challenge.validate]]
    exact hproc fuel polls 0

/-! ## C10 -/

/-- A successful `authenticated_request` hands back exactly the POST
response's headers and its parsed body. -/
theorem authenticated_request_ok_elim (T : Type) (cache : Option String)
    (nurl : String) (c : Crypto) (url payload : String) (pkey : PKey)
    (pkey_id : Option String) (nr : NonceResponse) (pr : PostResponse T)
    (v : AcmeResult T) (hdrs : Headers)
    (h : (authenticated_request T cache nurl c url payload pkey pkey_id nr pr).result =
      some (.ok (v, hdrs))) :
    hdrs = pr.headers ∧ pr.body = .ok v := by
  unfold authenticated_request at h
  dsimp only [] at h
  split at h
  · simp at h
  · split at h
    · simp at h
    · simp at h
    · split at h
      · simp at h
      · rename_i v2 hbody
        simp only [Option.some.injEq, Except.ok.injEq, Prod.mk.injEq] at h
        obtain ⟨hv, hh⟩ := h
        subst hv
        exact ⟨hh.symm, hbody⟩

/-- **C10** Every `Account` a successful `AccountBuilder::build` returns has
its private key set — the caller-supplied key, or the freshly generated
4096-bit RSA key when none was supplied — and its key identifier set from the
response's `Location` header; in particular the `unwrap` inside
`Account::private_key` cannot panic on such an account. -/
theorem accountBuilder_build_private_key (b : AccountBuilderSt)
    (gen_rsa_private_key : Nat → PKey) (cache : Option String)
    (nurl aurl : String) (c : Crypto) (nr : NonceResponse)
    (pr : PostResponse AccountDe) (acc : Account)
    (h : AccountBuilder.build b gen_rsa_private_key cache nurl aurl c nr pr =
      some (.ok acc)) :
    acc.private_key = some (match b.private_key with
      | some k => k
      | none => gen_rsa_private_key 4096) ∧
    acc.private_key.isSome ∧
    Account.private_key_unwrap acc ≠ none ∧
    some acc.private_key_id = pr.headers.location := by
  unfold AccountBuilder.build at h
  dsimp only [] at h
  split at h
  · simp at h
  · simp at h
  · rename_i res headers hres
    split at h
    · simp at h
    · rename_i acc2
      split at h
      · simp at h
      · rename_i loc hloc
        simp only [Option.some.injEq, Except.ok.injEq] at h
        subst h
        obtain ⟨hh, -⟩ := authenticated_request_ok_elim _ _ _ _ _ _ _ _ _ _ _ _ hres
        subst hh
        exact ⟨rfl, rfl, by simp [Account.private_key_unwrap], by rw [hloc]⟩

/-! ## C5 -/

/-- Every character `b64Char` can emit lies in the base64url alphabet. -/
theorem b64Char_mem (n : Nat) : b64Char n ∈ b64Alphabet.data := by
  unfold b64Char List.getD
  cases h : b64Alphabet.toList.get? n with
  | none => decide
  | some c => simpa [String.toList] using List.get?_mem h

/-- Every character of a base64url encoding lies in the alphabet. -/
theorem b64Chars_mem (bs : List Nat) : ∀ c ∈ b64Chars bs, c ∈ b64Alphabet.data := by
  induction bs using b64Chars.induct <;> simp_all [b64Chars, b64Char_mem]

/-- Alphabet characters are not JSON-escaped. -/
theorem escapeChar_of_mem (c : Char) (h : c ∈ b64Alphabet.data) :
    escapeChar c = String.singleton c := by
  fin_cases h <;> rfl

/-- Escaping is the identity on strings whose characters are all escape-free. -/
theorem jsonEscapeList_safe (l : List Char)
    (h : ∀ c ∈ l, escapeChar c = String.singleton c) :
    jsonEscapeList l = String.mk l := by
  induction l with
  | nil => rfl
  | cons a as ih =>
    have has : jsonEscapeList as = String.mk as :=
      ih (fun c hc => h c (by simp [hc]))
    show escapeChar a ++ jsonEscapeList as = String.mk (a :: as)
    rw [h a (by simp), has]
    rfl

/-- base64url outputs pass through JSON escaping unchanged. -/
theorem jsonEscape_b64 (bs : List Nat) : jsonEscape (b64 bs) = b64 bs :=
  jsonEscapeList_safe _ (fun c hc => escapeChar_of_mem c (b64Chars_mem bs c hc))

/-- Freedom from whitespace, stated over the character list of a string. -/
def wsFree (s : String) : Prop := ∀ ch ∈ s.data, ¬ ch.isWhitespace

/-- Concatenation preserves whitespace-freedom. -/
theorem wsFree_append (a b : String) (ha : wsFree a) (hb : wsFree b) :
    wsFree (a ++ b) := by
  intro ch hch
  rw [String.data_append] at hch
  rcases List.mem_append.mp hch with h | h
  · exact ha ch h
  · exact hb ch h

/-- No character of the base64url alphabet is whitespace. -/
theorem alphabet_not_ws : ∀ c ∈ b64Alphabet.data, ¬ c.isWhitespace := by decide

/-- base64url output contains no whitespace. -/
theorem wsFree_b64 (bs : List Nat) : wsFree (b64 bs) := fun ch hch =>
  alphabet_not_ws ch (b64Chars_mem bs ch hch)

/-- The canonical RFC 7638 thumbprint input for an RSA JWK, written out as
the spec states it: keys `e`, `kty`, `n` in lexicographic order, no
whitespace, no trailing newline. -/
def specRsaThumbprintInput (e n : String) : String :=
  "\x7b\"e\":\"" ++ e ++ "\",\"kty\":\"RSA\",\"n\":\"" ++ n ++ "\"\x7d"

/-- The canonical RFC 7638 thumbprint input for an EC P-256 JWK, written out
as the spec states it: keys `crv`, `kty`, `x`, `y` in lexicographic order. -/
def specEcThumbprintInput (x y : String) : String :=
  "\x7b\"crv\":\"P-256\",\"kty\":\"EC\",\"x\":\"" ++ x ++ "\",\"y\":\"" ++ y ++ "\"\x7d"

/-- Evaluation of the thumbprint sort for the RSA key set. -/
theorem sortPairs_rsa (e n : String) :
    sortPairs [("kty", "RSA"), ("e", e), ("n", n)] =
      [("e", e), ("kty", "RSA"), ("n", n)] := by
  simp +decide [sortPairs, insertPair, strLt, charListLt]

/-- Evaluation of the thumbprint sort for the EC key set. -/
theorem sortPairs_ec (crv x y : String) :
    sortPairs [("kty", "EC"), ("crv", crv), ("x", x), ("y", y)] =
      [("crv", crv), ("kty", "EC"), ("x", x), ("y", y)] := by
  simp +decide [sortPairs, insertPair, strLt, charListLt]

/-- The canonical serialization of an RSA JWK whose components are base64url
outputs is exactly the string the spec prescribes. -/
theorem thumbprintSerialization_rsa (e n : List Nat) :
    (Jwk.Rsa (b64 e) (b64 n)).thumbprintSerialization =
      specRsaThumbprintInput (b64 e) (b64 n) := by
  unfold Jwk.thumbprintSerialization Jwk.toJsonPairs
  rw [sortPairs_rsa]
  unfold renderStrObj
  simp only [List.map_cons, List.map_nil, joinComma]
  rw [jsonEscape_b64, jsonEscape_b64]
  rw [show jsonEscape "e" = "e" from by decide,
    show jsonEscape "kty" = "kty" from by decide,
    show jsonEscape "RSA" = "RSA" from by decide,
    show jsonEscape "n" = "n" from by decide]
  apply String.ext
  simp [specRsaThumbprintInput, String.data_append]

/-- The canonical serialization of an EC P-256 JWK whose coordinates are
base64url outputs is exactly the string the spec prescribes. -/
theorem thumbprintSerialization_ec (x y : List Nat) :
    (Jwk.Ec "P-256" (b64 x) (b64 y)).thumbprintSerialization =
      specEcThumbprintInput (b64 x) (b64 y) := by
  unfold Jwk.thumbprintSerialization Jwk.toJsonPairs
  rw [sortPairs_ec]
  unfold renderStrObj
  simp only [List.map_cons, List.map_nil, joinComma]
  rw [jsonEscape_b64, jsonEscape_b64]
  rw [show jsonEscape "crv" = "crv" from by decide,
    show jsonEscape "P-256" = "P-256" from by decide,
    show jsonEscape "kty" = "kty" from by decide,
    show jsonEscape "EC" = "EC" from by decide,
    show jsonEscape "x" = "x" from by decide,
    show jsonEscape "y" = "y" from by decide]
  apply String.ext
  simp [specEcThumbprintInput, String.data_append]

/-- The RSA canonical string is whitespace-free and ends in the closing
brace when its components are base64url outputs. -/
theorem specRsa_wsFree_last (e n : List Nat) :
    wsFree (specRsaThumbprintInput (b64 e) (b64 n)) ∧
    (specRsaThumbprintInput (b64 e) (b64 n)).data.getLast? = some '\x7d' := by
  constructor
  · apply wsFree_append
    apply wsFree_append
    apply wsFree_append
    apply wsFree_append
    · intro ch hch; revert hch; revert ch
      show wsFree "\x7b\"e\":\""
      unfold wsFree; decide
    · exact wsFree_b64 e
    · unfold wsFree; decide
    · exact wsFree_b64 n
    · unfold wsFree; decide
  · show ((("\x7b\"e\":\"" ++ b64 e ++ "\",\"kty\":\"RSA\",\"n\":\"" ++ b64 n)
      ++ "\"\x7d") : String).data.getLast? = some '\x7d'
    rw [String.data_append, List.getLast?_append]
    rfl

/-- The EC canonical string is whitespace-free and ends in the closing brace
when its coordinates are base64url outputs. -/
theorem specEc_wsFree_last (x y : List Nat) :
    wsFree (specEcThumbprintInput (b64 x) (b64 y)) ∧
    (specEcThumbprintInput (b64 x) (b64 y)).data.getLast? = some '\x7d' := by
  constructor
  · apply wsFree_append
    apply wsFree_append
    apply wsFree_append
    apply wsFree_append
    · unfold wsFree; decide
    · exact wsFree_b64 x
    · unfold wsFree; decide
    · exact wsFree_b64 y
    · unfold wsFree; decide
  · show ((("\x7b\"crv\":\"P-256\",\"kty\":\"EC\",\"x\":\"" ++ b64 x ++
      "\",\"y\":\"" ++ b64 y) ++ "\"\x7d") : String).data.getLast? = some '\x7d'
    rw [String.data_append, List.getLast?_append]
    rfl

/-- **C5** For every account key accepted by `Jwk::new`, the thumbprint is
`b64(sha256(S))` where `S` is the JWK serialized with its keys in strict
byte-wise lexicographic order (`e`,`kty`,`n` for RSA; `crv`,`kty`,`x`,`y` for
EC P-256), with no whitespace and no trailing newline (the last character is
the closing brace). -/
theorem jwk_thumbprint_canonical (sha256 : List Nat → List Nat) (pkey : PKey)
    (jwk : Jwk) (h : Jwk.new pkey = .ok jwk) :
    Jwk.thumbprint sha256 jwk =
      b64 (sha256 (strBytes jwk.thumbprintSerialization)) ∧
    (∀ e n, jwk = .Rsa e n →
      jwk.thumbprintSerialization = specRsaThumbprintInput e n ∧
      (sortPairs jwk.toJsonPairs).map Prod.fst = ["e", "kty", "n"]) ∧
    (∀ crv x y, jwk = .Ec crv x y → crv = "P-256" ∧
      jwk.thumbprintSerialization = specEcThumbprintInput x y ∧
      (sortPairs jwk.toJsonPairs).map Prod.fst = ["crv", "kty", "x", "y"]) ∧
    List.Pairwise (fun a b => strLt a b = true)
      ((sortPairs jwk.toJsonPairs).map Prod.fst) ∧
    wsFree jwk.thumbprintSerialization ∧
    jwk.thumbprintSerialization.data.getLast? = some '\x7d' := by
  cases pkey with
  | rsa e0 n0 =>
    have hnf : Jwk.new (.rsa e0 n0) = .ok (.Rsa (b64 e0) (b64 n0)) := rfl
    rw [hnf] at h
    injection h with h
    subst h
    refine ⟨rfl, ?_, ?_, ?_, ?_, ?_⟩
    · intro e n heq
      injection heq with he hn
      subst he
      subst hn
      refine ⟨thumbprintSerialization_rsa e0 n0, ?_⟩
      rw [show (Jwk.Rsa (b64 e0) (b64 n0)).toJsonPairs =
        [("kty", "RSA"), ("e", b64 e0), ("n", b64 n0)] from rfl, sortPairs_rsa]
      rfl
    · intro crv x y heq
      cases heq
    · rw [show (Jwk.Rsa (b64 e0) (b64 n0)).toJsonPairs =
        [("kty", "RSA"), ("e", b64 e0), ("n", b64 n0)] from rfl, sortPairs_rsa]
      simp +decide
    · rw [thumbprintSerialization_rsa]
      exact (specRsa_wsFree_last e0 n0).1
    · rw [thumbprintSerialization_rsa]
      exact (specRsa_wsFree_last e0 n0).2
  | ec curve pt =>
    cases curve with
    | X9_62_PRIME256V1 =>
      have hnf : Jwk.new (.ec .X9_62_PRIME256V1 pt) =
        .ok (.Ec "P-256" (b64 ((pt.drop 1).take ((pt.drop 1).length / 2)))
          (b64 ((pt.drop 1).drop ((pt.drop 1).length / 2)))) := rfl
      rw [hnf] at h
      injection h with h
      subst h
      refine ⟨rfl, ?_, ?_, ?_, ?_, ?_⟩
      · intro e n heq
        cases heq
      · intro crv x y heq
        injection heq with hc hx hy
        subst hc
        subst hx
        subst hy
        refine ⟨rfl, thumbprintSerialization_ec _ _, ?_⟩
        rw [show (Jwk.Ec "P-256"
          (b64 ((pt.drop 1).take ((pt.drop 1).length / 2)))
          (b64 ((pt.drop 1).drop ((pt.drop 1).length / 2)))).toJsonPairs =
          [("kty", "EC"), ("crv", "P-256"),
            ("x", b64 ((pt.drop 1).take ((pt.drop 1).length / 2))),
            ("y", b64 ((pt.drop 1).drop ((pt.drop 1).length / 2)))] from rfl,
          sortPairs_ec]
        rfl
      · rw [show (Jwk.Ec "P-256"
          (b64 ((pt.drop 1).take ((pt.drop 1).length / 2)))
          (b64 ((pt.drop 1).drop ((pt.drop 1).length / 2)))).toJsonPairs =
          [("kty", "EC"), ("crv", "P-256"),
            ("x", b64 ((pt.drop 1).take ((pt.drop 1).length / 2))),
            ("y", b64 ((pt.drop 1).drop ((pt.drop 1).length / 2)))] from rfl,
          sortPairs_ec]
        simp +decide
      · rw [thumbprintSerialization_ec]
        exact (specEc_wsFree_last _ _).1
      · rw [thumbprintSerialization_ec]
        exact (specEc_wsFree_last _ _).2
    | otherCurve m =>
      exact absurd h (by simp [Jwk.new])
  | unsupported d =>
    exact absurd h (by simp [Jwk.new])

/-! ## Concrete fixtures for witnesses -/

/-- Tiny concrete crypto oracle: a fixed signature byte string and a fixed
pair of DER integer components. -/
def cW : Crypto := ⟨fun _ => [3], fun _ => .ok ([0, 255], [1])⟩

/-- A tiny concrete RSA key (`e = 0x01`, `n = 0x02`). -/
def pkeyRsaW : PKey := .rsa [1] [2]

/-- Extract the success value of a `jws` call (junk on failure). -/
def getJwsOut (r : Except Error (Option JwsOut)) : JwsOut :=
  match r with
  | .ok (some o) => o
  | _ => ⟨⟨"", "", "", none, none⟩, "", "", "", [], ""⟩

/-- The output of a concrete `jws` call in `kid` mode. -/
def jwsOutKidW : JwsOut := getJwsOut (jws cW "u" "n" "p" pkeyRsaW (some "k"))

/-- The output of a concrete `jws` call in `jwk` mode with empty payload. -/
def jwsOutEmptyW : JwsOut :=
  getJwsOut (jws cW "u" "n" authorizationsPayload pkeyRsaW none)

/-- The output of a concrete `jws` call signed under nonce `n0`. -/
def jwsOutN0W : JwsOut := getJwsOut (jws cW "u" "n0" "p" pkeyRsaW (some "k"))

/-- The JWK of the concrete RSA key. -/
def jwkW : Jwk := .Rsa (b64 [1]) (b64 [2])

/-- A concrete stand-in hash oracle. -/
def shaW : List Nat → List Nat := fun _ => [4]

/-- A newNonce response carrying no Replay-Nonce header. -/
def nrW : NonceResponse := ⟨none⟩

/-- A concrete badNonce problem document. -/
def pdW : AcmeError := ⟨some badNonceType, some "badNonce", some 400, some "stale nonce"⟩

/-- A POST response whose body is the badNonce problem document. -/
def prUnitW : PostResponse Unit := ⟨⟨some "n1", none⟩, .ok (.err pdW)⟩

/-- A concrete account-builder configuration supplying its own key. -/
def bW : AccountBuilderSt := ⟨some pkeyRsaW, none, some true, none⟩

/-- A successful `newAccount` POST response with a `Location` header. -/
def prAccW : PostResponse AccountDe :=
  ⟨⟨some "n1", some "https://ca.example/acct/1"⟩, .ok (.ok ⟨.Valid, none, some true⟩)⟩

/-- Extract a built account (junk on failure). -/
def getAccountOk (r : Option (Except Error Account)) : Account :=
  match r with
  | some (.ok a) => a
  | _ => ⟨none, "", .Valid, none, none⟩

/-- The concrete account produced by a successful `AccountBuilder::build`. -/
def accW : Account :=
  getAccountOk (AccountBuilder.build bW (fun _ => pkeyRsaW) (some "n0") "nu" "au"
    cW nrW prAccW)

/-! ## Witnesses -/

/-- Witness for C1 at concrete components `r = [0x00, 0xFF]`, `s = [0x01]`. -/
theorem es256_signature_conversion_witness :
    cW.derParse (cW.signToVec [9]) = .ok ([0, 255], [1]) ∧
    (stripSignByte [0, 255]).length ≤ 32 ∧
    (stripSignByte [1]).length ≤ 32 ∧
    (Jwk.sign_sha256 cW (.Ec "P-256" "x" "y") [9] = .ok (ecdsaDerToRaw [0, 255] [1]) ∧
     (ecdsaDerToRaw [0, 255] [1]).length = 64 ∧
     (ecdsaDerToRaw [0, 255] [1]).take 32 = padTo32 (stripSignByte [0, 255]) ∧
     (ecdsaDerToRaw [0, 255] [1]).drop 32 = padTo32 (stripSignByte [1]) ∧
     beVal ((ecdsaDerToRaw [0, 255] [1]).take 32) = beVal [0, 255] ∧
     beVal ((ecdsaDerToRaw [0, 255] [1]).drop 32) = beVal [1] ∧
     (∀ b t, [0, 255] = b :: t → b ≠ 0 → stripSignByte [0, 255] = [0, 255]) ∧
     (∀ t, [0, 255] = 0 :: t → stripSignByte [0, 255] = t) ∧
     (∀ t, [0, 255] = 0 :: 255 :: t → t.length = 31 →
       (ecdsaDerToRaw [0, 255] [1]).take 32 = 255 :: t)) :=
  ⟨rfl, by decide, by decide,
    es256_signature_conversion cW "P-256" "x" "y" [9] [0, 255] [1] rfl
      (by decide) (by decide)⟩

/-- Witness for C2 at a concrete badNonce response. -/
theorem authenticated_request_no_badNonce_retry_witness :
    (get_nonce (some "n0") "nu" nrW).result = .ok "n0" ∧
    jws cW "u" "n0" "p" pkeyRsaW (some "k") = .ok (some jwsOutN0W) ∧
    prUnitW.body = .ok (.err pdW) ∧
    pdW.typ = some badNonceType ∧
    ((authenticated_request Unit (some "n0") "nu" cW "u" "p" pkeyRsaW (some "k")
        nrW prUnitW).result = some (.ok (.err pdW, prUnitW.headers)) ∧
     ((authenticated_request Unit (some "n0") "nu" cW "u" "p" pkeyRsaW (some "k")
        nrW prUnitW).requests.countP
       (fun rq => decide (rq.method = Method.POST))) = 1) :=
  ⟨rfl, rfl, rfl, rfl,
    authenticated_request_no_badNonce_retry Unit (some "n0") "nu" cW "u" "p"
      pkeyRsaW (some "k") nrW prUnitW "n0" jwsOutN0W pdW rfl rfl rfl rfl⟩

/-- Witness for C3 at a concrete `kid`-mode call. -/
theorem jws_header_exactly_one_of_jwk_kid_witness :
    jws cW "u" "n" "p" pkeyRsaW (some "k") = .ok (some jwsOutKidW) ∧
    (((jwsOutKidW.header.kid.isSome ∧ jwsOutKidW.header.jwk = none) ∨
      (jwsOutKidW.header.kid = none ∧ jwsOutKidW.header.jwk.isSome)) ∧
     (∀ kid, (some "k" : Option String) = some kid →
       jwsOutKidW.header.kid = some kid ∧ jwsOutKidW.header.jwk = none) ∧
     ((some "k" : Option String) = none → jwsOutKidW.header.kid = none ∧
       ∃ jwk, Jwk.new pkeyRsaW = .ok jwk ∧ jwsOutKidW.header.jwk = some jwk) ∧
     (jwsOutKidW.header.serializedPairs.map Prod.fst).count "kid" +
       (jwsOutKidW.header.serializedPairs.map Prod.fst).count "jwk" = 1) :=
  ⟨rfl, jws_header_exactly_one_of_jwk_kid cW "u" "n" "p" pkeyRsaW (some "k")
    jwsOutKidW rfl⟩

/-- Witness for C4 at a concrete empty-payload call. -/
theorem jws_empty_payload_encoding_witness :
    jws cW "u" "n" authorizationsPayload pkeyRsaW none = .ok (some jwsOutEmptyW) ∧
    (jwsOutEmptyW.payload_b64 = "" ∧
     jwsOutEmptyW.payload_b64 = b64 [] ∧
     jwsOutEmptyW.pairs.lookup "payload" = some (.str "") ∧
     b64 (strBytes "null") = "bnVsbA" ∧
     b64 (strBytes "\"\"") = "IiI" ∧
     jwsOutEmptyW.payload_b64 ≠ b64 (strBytes "null") ∧
     jwsOutEmptyW.payload_b64 ≠ b64 (strBytes "\"\"")) :=
  ⟨rfl, jws_empty_payload_encoding cW "u" "n" pkeyRsaW none jwsOutEmptyW rfl⟩

/-- Witness for C5 at the concrete RSA key. -/
theorem jwk_thumbprint_canonical_witness :
    Jwk.new pkeyRsaW = .ok jwkW ∧
    (Jwk.thumbprint shaW jwkW =
      b64 (shaW (strBytes jwkW.thumbprintSerialization)) ∧
     (∀ e n, jwkW = .Rsa e n →
       jwkW.thumbprintSerialization = specRsaThumbprintInput e n ∧
       (sortPairs jwkW.toJsonPairs).map Prod.fst = ["e", "kty", "n"]) ∧
     (∀ crv x y, jwkW = .Ec crv x y → crv = "P-256" ∧
       jwkW.thumbprintSerialization = specEcThumbprintInput x y ∧
       (sortPairs jwkW.toJsonPairs).map Prod.fst = ["crv", "kty", "x", "y"]) ∧
     List.Pairwise (fun a b => strLt a b = true)
       ((sortPairs jwkW.toJsonPairs).map Prod.fst) ∧
     wsFree jwkW.thumbprintSerialization ∧
     jwkW.thumbprintSerialization.data.getLast? = some '\x7d') :=
  ⟨rfl, jwk_thumbprint_canonical shaW pkeyRsaW jwkW rfl⟩

/-- Witness for the amended C6 at concrete inputs. -/
theorem get_nonce_spec_witness :
    (∀ n, (some "x" : Option String) = some n →
      get_nonce (some "x") "nu" nrW = ⟨.ok n, none, []⟩) ∧
    ((some "x" : Option String) = none →
      (get_nonce (some "x") "nu" nrW).requests = [⟨.GET, "nu"⟩] ∧
      (get_nonce (some "x") "nu" nrW).cache = none ∧
      (∀ n, nrW.replayNonce = some n →
        (get_nonce (some "x") "nu" nrW).result = .ok n) ∧
      (nrW.replayNonce = none → (get_nonce (some "x") "nu" nrW).result =
        .error (.Anyhow "newNonce request must return a nonce"))) :=
  get_nonce_spec (some "x") "nu" nrW

/-- Witness for C8 at concrete call parameters. -/
theorem unsupported_keys_rejected_witness :
    (∀ pkey : PKey, (∀ e n, pkey ≠ .rsa e n) →
      (∀ pt, pkey ≠ .ec .X9_62_PRIME256V1 pt) →
      Jwk.new pkey = .error (.Other "unsupported private key type") ∧
      jws cW "u" "n" "p" pkey none =
        .error (.Other "unsupported private key type")) ∧
    (∀ e n out,
      jws cW "u" "n" "p" (.rsa e n) none = .ok (some out) →
      out.header.alg = "RS256") ∧
    (∀ pt out,
      jws cW "u" "n" "p" (.ec .X9_62_PRIME256V1 pt) none = .ok (some out) →
      out.header.alg = "ES256") :=
  unsupported_keys_rejected cW "u" "n" "p" none

/-- Witness for C10 at a concrete successful registration. -/
theorem accountBuilder_build_private_key_witness :
    AccountBuilder.build bW (fun _ => pkeyRsaW) (some "n0") "nu" "au" cW nrW
      prAccW = some (.ok accW) ∧
    (accW.private_key = some (match bW.private_key with
      | some k => k
      | none => (fun _ => pkeyRsaW : Nat → PKey) 4096) ∧
     accW.private_key.isSome ∧
     Account.private_key_unwrap accW ≠ none ∧
     some accW.private_key_id = prAccW.headers.location) :=
  ⟨rfl, accountBuilder_build_private_key bW (fun _ => pkeyRsaW) (some "n0")
    "nu" "au" cW nrW prAccW accW rfl⟩

end Acme2
